import Mathlib

/-!
Shallow embedding of the differential-drive Gazebo plugin
(src/diffdrive_plugin.cpp).  Machine doubles are modelled as real
numbers; the Boost Gaussian variate generators are modelled by passing
the underlying standard-normal draw `z` explicitly, so a sample from
`normal_dist(mean, sigma)` is `mean + sigma * z`.
-/

namespace DiffDrive

open Real

/-- `static double const min_variance = 1e-6;` (diffdrive_plugin.cpp:54). -/
noncomputable def min_variance : ℝ := 1e-6

/-- `btVector3`: the 3-vector type used for positions. -/
structure Vec3 where
  x : ℝ
  y : ℝ
  z : ℝ

/-- Componentwise subtraction, `curr_true_pos - last_true_pos_`. -/
noncomputable def Vec3.sub (a b : Vec3) : Vec3 :=
  ⟨a.x - b.x, a.y - b.y, a.z - b.z⟩

/-- `btVector3::dot`. -/
noncomputable def Vec3.dot (a b : Vec3) : ℝ :=
  a.x * b.x + a.y * b.y + a.z * b.z

/-- Inner loop of ROS `angles::normalize_angle_positive`:
`fmod(fmod(angle, 2π) + 2π, 2π)`, which over the reals is the
mathematical remainder of `a` modulo `2π`, landing in `[0, 2π)`. -/
noncomputable def normalize_angle_positive (a : ℝ) : ℝ :=
  a - 2 * π * (Int.floor (a / (2 * π)) : ℝ)

/-- ROS `angles::normalize_angle`: reduce into `(-π, π]` by subtracting
`2π` when the positive remainder exceeds `π`. -/
noncomputable def normalize_angle (a : ℝ) : ℝ :=
  if π < normalize_angle_positive a then normalize_angle_positive a - 2 * π
  else normalize_angle_positive a

/-- Gaussian sampling: Boost draws from `normal_dist(mean, sigma)`; with the
standard-normal variate `z` made explicit the sample is `mean + sigma * z`. -/
noncomputable def gaussianSample (mean sigma z : ℝ) : ℝ :=
  mean + sigma * z

/-- The per-tick history kept by the plugin: `last_true_pos_`,
`last_true_yaw_`, `last_odom_pos_`, `last_odom_yaw_`. -/
structure ErrorState where
  last_true_pos : Vec3
  last_true_yaw : ℝ
  last_odom_pos : Vec3
  last_odom_yaw : ℝ

/-- Constructor `DiffDrivePlugin::DiffDrivePlugin` (lines 66-72): all
history fields start at zero. -/
noncomputable def initState : ErrorState :=
  { last_true_pos := ⟨0, 0, 0⟩
  , last_true_yaw := 0
  , last_odom_pos := ⟨0, 0, 0⟩
  , last_odom_yaw := 0 }

/-- Return record of `DiffDrivePlugin::generateError`. -/
structure OdometryUpdate where
  curr_odom_pos : Vec3
  curr_odom_yaw : ℝ
  v_left : ℝ
  v_right : ℝ

/-- `DiffDrivePlugin::generateError` (lines 354-391), with the two
standard-normal draws consumed from `rng_` passed in as `zl`, `zr`. -/
noncomputable def generateError (wheelSeparation alpha : ℝ) (s : ErrorState)
    (curr_true_pos : Vec3) (curr_true_yaw zl zr : ℝ) : OdometryUpdate :=
  let delta_true_pos := Vec3.sub curr_true_pos s.last_true_pos
  let u : Vec3 := ⟨Real.cos s.last_true_yaw, Real.sin s.last_true_yaw, 0⟩
  let delta_linear := Vec3.dot delta_true_pos u
  let delta_yaw := normalize_angle (curr_true_yaw - s.last_true_yaw)
  let v_left := delta_linear - 0.5 * wheelSeparation * delta_yaw
  let v_right := delta_linear + 0.5 * wheelSeparation * delta_yaw
  let sigma_left := max |alpha * v_left| min_variance
  let sigma_right := max |alpha * v_right| min_variance
  let noisy_v_left := gaussianSample v_left sigma_left zl
  let noisy_v_right := gaussianSample v_right sigma_right zr
  let noisy_delta_linear := 0.5 * (noisy_v_left + noisy_v_right)
  let noisy_delta_yaw := (noisy_v_right - noisy_v_left) / wheelSeparation
  { curr_odom_pos :=
      ⟨s.last_odom_pos.x + noisy_delta_linear * Real.cos s.last_odom_yaw,
       s.last_odom_pos.y + noisy_delta_linear * Real.sin s.last_odom_yaw,
       s.last_odom_pos.z⟩
  , curr_odom_yaw := normalize_angle (s.last_odom_yaw + noisy_delta_yaw)
  , v_left := noisy_v_left
  , v_right := noisy_v_right }

/-- The noiseless left-wheel delta computed inside `generateError`
(lines 360-366): projection of the true displacement onto the previous
true heading, minus half the separation times the normalized yaw delta. -/
noncomputable def noiseless_v_left (wheelSeparation : ℝ) (s : ErrorState)
    (curr_true_pos : Vec3) (curr_true_yaw : ℝ) : ℝ :=
  Vec3.dot (Vec3.sub curr_true_pos s.last_true_pos)
      ⟨Real.cos s.last_true_yaw, Real.sin s.last_true_yaw, 0⟩
    - 0.5 * wheelSeparation * normalize_angle (curr_true_yaw - s.last_true_yaw)

/-- The noiseless right-wheel delta computed inside `generateError`
(lines 360-367). -/
noncomputable def noiseless_v_right (wheelSeparation : ℝ) (s : ErrorState)
    (curr_true_pos : Vec3) (curr_true_yaw : ℝ) : ℝ :=
  Vec3.dot (Vec3.sub curr_true_pos s.last_true_pos)
      ⟨Real.cos s.last_true_yaw, Real.sin s.last_true_yaw, 0⟩
    + 0.5 * wheelSeparation * normalize_angle (curr_true_yaw - s.last_true_yaw)

end DiffDrive

namespace DiffDrive

/-- Dead-reckoned pose `odomPose[0..2]` (x, y, yaw). -/
structure OdomPose where
  x : ℝ
  y : ℝ
  yaw : ℝ

/-- Odometric instantaneous velocity `odomVel[0..2]`. -/
structure OdomVel where
  vx : ℝ
  vy : ℝ
  vyaw : ℝ

/-- The dead-reckoning core of `DiffDrivePlugin::UpdateChild`
(lines 273-295): per-wheel displacements from the measured joint
velocities, mean displacement and heading change, pose and twist update. -/
noncomputable def UpdateChild (wheelDiameter wheelSeparation stepTime
    omega_left omega_right : ℝ) (pose : OdomPose) : OdomPose × OdomVel :=
  let wd := wheelDiameter
  let ws := wheelSeparation
  let d1 := stepTime * wd / 2 * omega_left
  let d2 := stepTime * wd / 2 * omega_right
  let dr := (d1 + d2) / 2
  let da := (d1 - d2) / ws
  (⟨pose.x + dr * Real.cos pose.yaw,
    pose.y + dr * Real.sin pose.yaw,
    pose.yaw + da⟩,
   ⟨dr / stepTime, 0, da / stepTime⟩)

/-- `DiffDrivePlugin::GetPositionCmd` (lines 317-332): per-wheel target
speeds (left, right) from the latest command `(x_, rot_)`. -/
noncomputable def GetPositionCmd (wheelSeparation x rot : ℝ) : ℝ × ℝ :=
  let vr := x
  let va := rot
  (vr + va * wheelSeparation / 2, vr - va * wheelSeparation / 2)

/-- A world pose as used by `write_position_data`: position plus an
orientation represented by its (roll, pitch, yaw) Euler angles, matching
`rot.SetFromEuler(math::Vector3(0,0,odomPose[2]))`. -/
structure WorldPose where
  pos : Vec3
  rotEuler : Vec3

/-- `DiffDrivePlugin::write_position_data` (lines 465-485): copy the
world pose, overwrite x and y with the dead-reckoned estimate, set the
orientation to the pure-yaw rotation, and leave z as it was. -/
noncomputable def write_position_data (orig : WorldPose) (pose : OdomPose) :
    WorldPose :=
  { pos := ⟨pose.x, pose.y, orig.pos.z⟩
  , rotEuler := ⟨0, 0, pose.yaw⟩ }

/-- One full `UpdateChild` step as far as pose state is concerned: the
dead-reckoning integration followed by the `write_position_data`
write-back (line 303). -/
noncomputable def UpdateChildStep (wheelDiameter wheelSeparation stepTime
    omega_left omega_right : ℝ) (pose : OdomPose) (world : WorldPose) :
    OdomPose × OdomVel × WorldPose :=
  let r := UpdateChild wheelDiameter wheelSeparation stepTime
      omega_left omega_right pose
  (r.1, r.2, write_position_data world r.1)

/-- Fields of the `robot_kf::WheelOdometry` message filled in by
`publish_odometry`. -/
structure WheelOdometry where
  separation : ℝ
  left_movement : ℝ
  left_variance : ℝ
  right_movement : ℝ
  right_variance : ℝ

/-- The wheel-odometry part of `DiffDrivePlugin::publish_odometry`
(lines 433-448): `beta` is the hard-coded constant 1, and the standard
deviations are recomputed from the noisy movements `update.v_left`,
`update.v_right`. -/
noncomputable def publish_wheel_odometry (alpha wheelSeparation : ℝ)
    (update : OdometryUpdate) : WheelOdometry :=
  let beta : ℝ := 1
  let stddev_left := max |alpha * update.v_left| min_variance
  let stddev_right := max |alpha * update.v_right| min_variance
  { separation := wheelSeparation
  , left_movement := update.v_left
  , left_variance := (beta * stddev_left) ^ 2
  , right_movement := update.v_right
  , right_variance := (beta * stddev_right) ^ 2 }

/-- The variance the spec attributes to the emitted measurement:
`(beta · sigma)^2` with `sigma = max(|alpha · v|, eps)` computed from the
NOISELESS per-wheel delta `v` of step 3.  Stated from the spec's words,
for comparison with `publish_wheel_odometry`. -/
noncomputable def spec_variance_from_noiseless (beta alpha v : ℝ) : ℝ :=
  (beta * max |alpha * v| min_variance) ^ 2

/-- Per-publish-tick input: whether the rate limiter skips this tick, the
true pose queried from Gazebo, and the two standard-normal draws. -/
structure PubInput where
  skip : Bool
  curr_true_pos : Vec3
  curr_true_yaw : ℝ
  zl : ℝ
  zr : ℝ

/-- State transition of `publish_odometry` (lines 393-462): an early
return when throttled, otherwise the history fields are overwritten with
the current true pose and the freshly generated noisy pose. -/
noncomputable def publishStep (wheelSeparation alpha : ℝ) (s : ErrorState)
    (inp : PubInput) : ErrorState :=
  if inp.skip then s
  else
    let update := generateError wheelSeparation alpha s inp.curr_true_pos
        inp.curr_true_yaw inp.zl inp.zr
    { last_true_pos := inp.curr_true_pos
    , last_true_yaw := inp.curr_true_yaw
    , last_odom_pos := update.curr_odom_pos
    , last_odom_yaw := update.curr_odom_yaw }

/-- Configuration as seen by `Load`: each numeric option is present or
absent in the SDF, and each joint name does or does not resolve. -/
structure SdfConfig where
  wheelSeparation : Option ℝ
  wheelDiameter : Option ℝ
  torque : Option ℝ
  alpha : Option ℝ
  updateRate : Option ℝ
  leftJointFound : Bool
  rightJointFound : Bool

/-- The numeric parameters held after a successful `Load`. -/
structure LoadedParams where
  wheelSeparation : ℝ
  wheelDiameter : ℝ
  torque : ℝ
  alpha : ℝ
  rate : ℝ

/-- `DiffDrivePlugin::Load` (lines 82-264), restricted to the numeric
configuration and joint resolution: missing options fall back to their
documented defaults with a warning, and the only fatal conditions are
the two `gzthrow` calls for unresolved joints (lines 226-227).  No value
check is performed on any numeric option. -/
noncomputable def Load (cfg : SdfConfig) : Except String LoadedParams :=
  let sep := cfg.wheelSeparation.getD 0.34
  let diam := cfg.wheelDiameter.getD 0.15
  let tq := cfg.torque.getD 5
  let a := cfg.alpha.getD 0
  let r := cfg.updateRate.getD 50
  if cfg.leftJointFound = false then
    Except.error "The controller could not get left hinge joint"
  else if cfg.rightJointFound = false then
    Except.error "The controller could not get right hinge joint"
  else
    Except.ok ⟨sep, diam, tq, a, r⟩

end DiffDrive

namespace DiffDrive

open Real

/-! ### Range of `normalize_angle` -/

theorem normalize_angle_positive_range (a : ℝ) :
    0 ≤ normalize_angle_positive a ∧ normalize_angle_positive a < 2 * π := by
  have h2pi : (0 : ℝ) < 2 * π := by positivity
  have hrw : normalize_angle_positive a = 2 * π * Int.fract (a / (2 * π)) := by
    unfold normalize_angle_positive
    rw [Int.fract, mul_sub, mul_div_cancel₀ _ (ne_of_gt h2pi)]
  constructor
  · rw [hrw]
    exact mul_nonneg (le_of_lt h2pi) (Int.fract_nonneg _)
  · rw [hrw]
    calc 2 * π * Int.fract (a / (2 * π)) < 2 * π * 1 :=
          (mul_lt_mul_left h2pi).mpr (Int.fract_lt_one _)
    _ = 2 * π := mul_one _

theorem normalize_angle_range (a : ℝ) :
    -π < normalize_angle a ∧ normalize_angle a ≤ π := by
  obtain ⟨h0, h2⟩ := normalize_angle_positive_range a
  have hpi : (0 : ℝ) < π := Real.pi_pos
  unfold normalize_angle
  split_ifs with h
  · constructor <;> linarith
  · constructor <;> linarith

/-- `normalize_angle` is the identity on `(-π, π]`. -/
theorem normalize_angle_eq_self (a : ℝ) (h1 : -π < a) (h2 : a ≤ π) :
    normalize_angle a = a := by
  have h2pi : (0 : ℝ) < 2 * π := by positivity
  have hpi : (0 : ℝ) < π := Real.pi_pos
  by_cases ha : 0 ≤ a
  · have hfloor : Int.floor (a / (2 * π)) = 0 := by
      rw [Int.floor_eq_zero_iff]
      constructor
      · exact div_nonneg ha (le_of_lt h2pi)
      · rw [div_lt_one h2pi]
        linarith
    have hp : normalize_angle_positive a = a := by
      unfold normalize_angle_positive
      rw [hfloor]
      simp
    unfold normalize_angle
    rw [hp]
    split_ifs with h
    · linarith
    · rfl
  · push_neg at ha
    have hfloor : Int.floor (a / (2 * π)) = -1 := by
      rw [Int.floor_eq_iff]
      push_cast
      constructor
      · rw [le_div_iff₀ h2pi]
        linarith
      · rw [div_lt_iff₀ h2pi]
        linarith
    have hp : normalize_angle_positive a = a + 2 * π := by
      unfold normalize_angle_positive
      rw [hfloor]
      push_cast
      ring
    unfold normalize_angle
    rw [hp]
    split_ifs with h
    · ring
    · push_neg at h
      linarith

/-! ### Claim theorems -/

/-- C3: for every command `(linear, angular)` and separation, the inverse
kinematics sets the left wheel target to `linear + angular·separation/2`
and the right to `linear − angular·separation/2`; with separation 0.34,
`(1, 0)` gives `{1, 1}` and `(0, 1)` gives `{0.17, -0.17}`. -/
theorem GetPositionCmd_inverse_kinematics :
    (∀ sep x rot : ℝ,
      (GetPositionCmd sep x rot).1 = x + rot * sep / 2 ∧
      (GetPositionCmd sep x rot).2 = x - rot * sep / 2) ∧
    (GetPositionCmd 0.34 1 0).1 = 1 ∧ (GetPositionCmd 0.34 1 0).2 = 1 ∧
    (GetPositionCmd 0.34 0 1).1 = 0.17 ∧ (GetPositionCmd 0.34 0 1).2 = -0.17 := by
  refine ⟨fun sep x rot => ⟨rfl, rfl⟩, ?_, ?_, ?_, ?_⟩ <;>
    norm_num [GetPositionCmd]

/-- C4: recovering `(v, w)` from the wheel speeds via
`v = (left+right)/2` and `w = (left−right)/L` is exact for every command
and every separation `L > 0`. -/
theorem GetPositionCmd_round_trip (v w L : ℝ) (hL : 0 < L) :
    ((GetPositionCmd L v w).1 + (GetPositionCmd L v w).2) / 2 = v ∧
    ((GetPositionCmd L v w).1 - (GetPositionCmd L v w).2) / L = w := by
  have hne : L ≠ 0 := ne_of_gt hL
  constructor
  · simp only [GetPositionCmd]
    ring
  · simp only [GetPositionCmd]
    field_simp

/-- Witness for C4 at `v = 1`, `w = 2`, `L = 0.34`. -/
theorem GetPositionCmd_round_trip_witness :
    (0 : ℝ) < 0.34 ∧
    (((GetPositionCmd 0.34 1 2).1 + (GetPositionCmd 0.34 1 2).2) / 2 = 1 ∧
     ((GetPositionCmd 0.34 1 2).1 - (GetPositionCmd 0.34 1 2).2) / 0.34 = 2) :=
  ⟨by norm_num, GetPositionCmd_round_trip 1 2 0.34 (by norm_num)⟩

/-- C2: the dead-reckoning step computes the per-wheel displacements,
mean displacement and heading change as stated, adds `da` to the yaw
without renormalizing it into `(-π, π]`, and on the concrete scenario
`Δt = 0.1`, `ω = 2` on both wheels, diameter `0.15`, separation `0.34` it
advances `x` by `0.015·cos(yaw)` and leaves the yaw unchanged; starting
from yaw `4 > π` the yaw stays `4`, outside `(-π, π]`. -/
theorem UpdateChild_dead_reckoning :
    (∀ (wd ws dt wl wr : ℝ) (pose : OdomPose),
      (UpdateChild wd ws dt wl wr pose).1.x
        = pose.x + ((dt * wd / 2 * wl + dt * wd / 2 * wr) / 2)
            * Real.cos pose.yaw ∧
      (UpdateChild wd ws dt wl wr pose).1.y
        = pose.y + ((dt * wd / 2 * wl + dt * wd / 2 * wr) / 2)
            * Real.sin pose.yaw ∧
      (UpdateChild wd ws dt wl wr pose).1.yaw
        = pose.yaw + (dt * wd / 2 * wl - dt * wd / 2 * wr) / ws) ∧
    (∀ pose : OdomPose,
      (UpdateChild 0.15 0.34 0.1 2 2 pose).1.x
        = pose.x + 0.015 * Real.cos pose.yaw ∧
      (UpdateChild 0.15 0.34 0.1 2 2 pose).1.yaw = pose.yaw) ∧
    (UpdateChild 0.15 0.34 0.1 2 2 ⟨0, 0, 4⟩).1.yaw = 4 ∧ π < 4 := by
  have hpi := Real.pi_lt_d2
  refine ⟨fun wd ws dt wl wr pose => ⟨rfl, rfl, rfl⟩,
          fun pose => ⟨?_, ?_⟩, ?_, ?_⟩
  · simp only [UpdateChild]
    norm_num
  · simp only [UpdateChild]
    norm_num
  · simp only [UpdateChild]
    norm_num
  · linarith

/-- C7: the noisy yaw produced by `generateError` (the value published in
the odometry message and the broadcast transform) always lies in
`(-π, π]`. -/
theorem generateError_yaw_in_range :
    ∀ (sep alpha : ℝ) (s : ErrorState) (p : Vec3) (yaw zl zr : ℝ),
      -π < (generateError sep alpha s p yaw zl zr).curr_odom_yaw ∧
      (generateError sep alpha s p yaw zl zr).curr_odom_yaw ≤ π := by
  intro sep alpha s p yaw zl zr
  exact normalize_angle_range _

/-- C9: after the dead-reckoning integration, the world pose written back
by `write_position_data` has `x`, `y` taken from the integrated
`odomPose`, a pure-yaw orientation from `odomPose[2]`, and the original
world `z`. -/
theorem UpdateChildStep_write_back :
    ∀ (wd ws dt wl wr : ℝ) (pose : OdomPose) (world : WorldPose),
      (UpdateChildStep wd ws dt wl wr pose world).2.2
        = { pos := ⟨(UpdateChild wd ws dt wl wr pose).1.x,
                    (UpdateChild wd ws dt wl wr pose).1.y,
                    world.pos.z⟩
          , rotEuler := ⟨0, 0, (UpdateChild wd ws dt wl wr pose).1.yaw⟩ } :=
  fun _ _ _ _ _ _ _ => rfl

/-- Helper for C10: a single (possibly throttled) publish step keeps the
noisy `z` coordinate at zero. -/
theorem publishStep_preserves_z (sep alpha : ℝ) (s : ErrorState)
    (inp : PubInput) (h : s.last_odom_pos.z = 0) :
    (publishStep sep alpha s inp).last_odom_pos.z = 0 := by
  unfold publishStep
  split_ifs
  · exact h
  · exact h

/-- Helper for C10: the noisy `z` coordinate stays zero along any run. -/
theorem foldl_publishStep_z (sep alpha : ℝ) (l : List PubInput) :
    ∀ s : ErrorState, s.last_odom_pos.z = 0 →
      (l.foldl (publishStep sep alpha) s).last_odom_pos.z = 0 := by
  induction l with
  | nil => intro s h; simpa using h
  | cons i t ih =>
      intro s h
      simp only [List.foldl_cons]
      exact ih _ (publishStep_preserves_z _ _ _ _ h)

/-- C10: `generateError` copies the previous noisy `z` unchanged, the
constructor starts the noisy position at `(0,0,0)`, and therefore the `z`
component of every published noisy position is `0` along any run. -/
theorem generateError_z_invariant :
    (∀ (sep alpha : ℝ) (s : ErrorState) (p : Vec3) (yaw zl zr : ℝ),
      (generateError sep alpha s p yaw zl zr).curr_odom_pos.z
        = s.last_odom_pos.z) ∧
    initState.last_odom_pos.z = 0 ∧
    (∀ (sep alpha : ℝ) (l : List PubInput),
      (l.foldl (publishStep sep alpha) initState).last_odom_pos.z = 0) ∧
    (∀ (sep alpha : ℝ) (l : List PubInput) (p : Vec3) (yaw zl zr : ℝ),
      (generateError sep alpha (l.foldl (publishStep sep alpha) initState)
          p yaw zl zr).curr_odom_pos.z = 0) := by
  refine ⟨fun _ _ _ _ _ _ _ => rfl, rfl,
          fun sep alpha l => foldl_publishStep_z sep alpha l initState rfl,
          fun sep alpha l p yaw zl zr => ?_⟩
  exact foldl_publishStep_z sep alpha l initState rfl

/-- C1: `generateError` decomposes the true motion into `delta_linear`
(projection of the displacement onto the previous true heading) and the
normalized `delta_yaw`, forms `v_left = delta_linear − 0.5·sep·delta_yaw`
and `v_right = delta_linear + 0.5·sep·delta_yaw`, perturbs them, and
integrates the recomposed polar delta onto the previous NOISY pose; with
`delta_linear = 0.1`, `delta_yaw = 0.05`, separation `0.34` (and zero
noise draws) the decomposition yields `0.0915` and `0.1085`. -/
theorem generateError_polar_decomposition :
    (∀ (sep alpha : ℝ) (s : ErrorState) (p : Vec3) (yaw zl zr : ℝ),
      noiseless_v_left sep s p yaw
          = Vec3.dot (Vec3.sub p s.last_true_pos)
              ⟨Real.cos s.last_true_yaw, Real.sin s.last_true_yaw, 0⟩
            - 0.5 * sep * normalize_angle (yaw - s.last_true_yaw) ∧
      noiseless_v_right sep s p yaw
          = Vec3.dot (Vec3.sub p s.last_true_pos)
              ⟨Real.cos s.last_true_yaw, Real.sin s.last_true_yaw, 0⟩
            + 0.5 * sep * normalize_angle (yaw - s.last_true_yaw) ∧
      (generateError sep alpha s p yaw zl zr).v_left
          = gaussianSample (noiseless_v_left sep s p yaw)
              (max |alpha * noiseless_v_left sep s p yaw| min_variance) zl ∧
      (generateError sep alpha s p yaw zl zr).v_right
          = gaussianSample (noiseless_v_right sep s p yaw)
              (max |alpha * noiseless_v_right sep s p yaw| min_variance) zr ∧
      (generateError sep alpha s p yaw zl zr).curr_odom_pos.x
          = s.last_odom_pos.x
            + 0.5 * ((generateError sep alpha s p yaw zl zr).v_left
                     + (generateError sep alpha s p yaw zl zr).v_right)
              * Real.cos s.last_odom_yaw ∧
      (generateError sep alpha s p yaw zl zr).curr_odom_pos.y
          = s.last_odom_pos.y
            + 0.5 * ((generateError sep alpha s p yaw zl zr).v_left
                     + (generateError sep alpha s p yaw zl zr).v_right)
              * Real.sin s.last_odom_yaw ∧
      (generateError sep alpha s p yaw zl zr).curr_odom_yaw
          = normalize_angle (s.last_odom_yaw
              + ((generateError sep alpha s p yaw zl zr).v_right
                 - (generateError sep alpha s p yaw zl zr).v_left) / sep)) ∧
    (generateError 0.34 0 initState ⟨0.1, 0, 0⟩ 0.05 0 0).v_left = 0.0915 ∧
    (generateError 0.34 0 initState ⟨0.1, 0, 0⟩ 0.05 0 0).v_right = 0.1085 := by
  have hpi := Real.pi_gt_three
  have hn : normalize_angle ((1 : ℝ) / 20) = 1 / 20 :=
    normalize_angle_eq_self _ (by linarith) (by linarith)
  refine ⟨fun sep alpha s p yaw zl zr => ⟨rfl, rfl, rfl, rfl, rfl, rfl, rfl⟩,
          ?_, ?_⟩ <;>
  · simp only [generateError, initState, gaussianSample, Vec3.sub, Vec3.dot]
    rw [Real.cos_zero, Real.sin_zero]
    norm_num [hn]

/-- C5 counterexample: with `alpha = 0` but a nonzero standard-normal
draw, the emitted left movement is `0.0915 + 1e-6`, not the noiseless
`0.0915`: the variance floor keeps injecting noise at `alpha = 0`. -/
theorem publish_movement_alpha_zero_not_exact :
    (publish_wheel_odometry 0 0.34
        (generateError 0.34 0 initState ⟨0.1, 0, 0⟩ 0.05 1 1)).left_movement
      ≠ 0.0915 := by
  have hpi := Real.pi_gt_three
  have hn : normalize_angle ((1 : ℝ) / 20) = 1 / 20 :=
    normalize_angle_eq_self _ (by linarith) (by linarith)
  simp only [publish_wheel_odometry, generateError, initState, gaussianSample,
    Vec3.sub, Vec3.dot, min_variance]
  rw [Real.cos_zero, Real.sin_zero]
  norm_num [hn, max_def]

/-- C5 amended: with `alpha = 0` the per-wheel standard deviation is
floored at `min_variance = 1e-6`, so the emitted movements equal the
noiseless decomposition values plus `1e-6` times the standard-normal
draw — exactly the noiseless values only when the draw is zero. -/
theorem generateError_alpha_zero_floor :
    ∀ (sep : ℝ) (s : ErrorState) (p : Vec3) (yaw zl zr : ℝ),
      (generateError sep 0 s p yaw zl zr).v_left
          = noiseless_v_left sep s p yaw + min_variance * zl ∧
      (generateError sep 0 s p yaw zl zr).v_right
          = noiseless_v_right sep s p yaw + min_variance * zr ∧
      (publish_wheel_odometry 0 sep
          (generateError sep 0 s p yaw zl zr)).left_movement
          = noiseless_v_left sep s p yaw + min_variance * zl ∧
      (publish_wheel_odometry 0 sep
          (generateError sep 0 s p yaw zl zr)).right_movement
          = noiseless_v_right sep s p yaw + min_variance * zr := by
  intro sep s p yaw zl zr
  have hmax : ∀ v : ℝ, max |(0 : ℝ) * v| min_variance = min_variance := by
    intro v
    rw [zero_mul, abs_zero]
    exact max_eq_right (by norm_num [min_variance])
  refine ⟨?_, ?_, ?_, ?_⟩ <;>
    (simp [generateError, publish_wheel_odometry, gaussianSample, hmax,
      noiseless_v_left, noiseless_v_right]
     norm_num [min_variance])

/-- C6 counterexample: with `alpha = 1`, a unit true displacement and a
unit left noise draw, the published left variance is `4` (recomputed
from the noisy movement `2`), while the spec's formula from the
noiseless step-3 delta `1` gives `1`. -/
theorem publish_variance_not_from_noiseless :
    (publish_wheel_odometry 1 0.34
        (generateError 0.34 1 initState ⟨1, 0, 0⟩ 0 1 0)).left_variance
      ≠ spec_variance_from_noiseless 1 1
          (noiseless_v_left 0.34 initState ⟨1, 0, 0⟩ 0) := by
  have hn : normalize_angle 0 = 0 :=
    normalize_angle_eq_self 0 (by linarith [Real.pi_pos]) (le_of_lt Real.pi_pos)
  simp only [publish_wheel_odometry, generateError, spec_variance_from_noiseless,
    noiseless_v_left, initState, gaussianSample, Vec3.sub, Vec3.dot, min_variance]
  rw [Real.cos_zero, Real.sin_zero]
  norm_num [hn, max_def, abs_of_nonneg]

/-- C6 amended: the published per-wheel variance is
`(beta · max(|alpha · movement|, 1e-6))^2` with `beta` the hard-coded
constant `1` and `movement` the NOISY emitted movement; both variances
are squares and hence nonnegative. -/
theorem publish_variance_from_noisy_movement :
    ∀ (alpha sep : ℝ) (u : OdometryUpdate),
      (publish_wheel_odometry alpha sep u).left_movement = u.v_left ∧
      (publish_wheel_odometry alpha sep u).right_movement = u.v_right ∧
      (publish_wheel_odometry alpha sep u).left_variance
        = (1 * max |alpha * u.v_left| min_variance) ^ 2 ∧
      (publish_wheel_odometry alpha sep u).right_variance
        = (1 * max |alpha * u.v_right| min_variance) ^ 2 ∧
      0 ≤ (publish_wheel_odometry alpha sep u).left_variance ∧
      0 ≤ (publish_wheel_odometry alpha sep u).right_variance := by
  intro alpha sep u
  exact ⟨rfl, rfl, rfl, rfl, sq_nonneg _, sq_nonneg _⟩

/-- A configuration whose numeric geometry values are non-positive but
whose joints resolve. -/
noncomputable def badConfig : SdfConfig :=
  { wheelSeparation := some (-1)
  , wheelDiameter := some (-1)
  , torque := none
  , alpha := none
  , updateRate := none
  , leftJointFound := true
  , rightJointFound := true }

/-- C8 counterexample: `Load` accepts a configuration with wheel
separation `-1` and wheel diameter `-1`, returning them verbatim instead
of rejecting the configuration at startup. -/
theorem Load_accepts_nonpositive_geometry :
    Load badConfig = Except.ok ⟨-1, -1, 5, 0, 50⟩ ∧ ¬(0 < (-1 : ℝ)) := by
  exact ⟨rfl, by norm_num⟩

/-- C8 amended: `Load` performs no validation on the numeric
configuration values; whenever both joints resolve it succeeds and
stores each supplied value (or its default) verbatim, so the only
construction-time failures are unresolved joints. -/
theorem Load_only_checks_joints (cfg : SdfConfig)
    (hl : cfg.leftJointFound = true) (hr : cfg.rightJointFound = true) :
    Load cfg = Except.ok
      ⟨cfg.wheelSeparation.getD 0.34, cfg.wheelDiameter.getD 0.15,
       cfg.torque.getD 5, cfg.alpha.getD 0, cfg.updateRate.getD 50⟩ := by
  simp [Load, hl, hr]

/-- Witness for the amended C8 at the concrete configuration
`badConfig`. -/
theorem Load_only_checks_joints_witness :
    badConfig.leftJointFound = true ∧ badConfig.rightJointFound = true ∧
    Load badConfig = Except.ok
      ⟨badConfig.wheelSeparation.getD 0.34, badConfig.wheelDiameter.getD 0.15,
       badConfig.torque.getD 5, badConfig.alpha.getD 0,
       badConfig.updateRate.getD 50⟩ :=
  ⟨rfl, rfl, Load_only_checks_joints badConfig rfl rfl⟩

end DiffDrive
